import Mathlib

/-!
Verification of the globeco-allocation-service allocation pipeline.

Shallow embedding of the Go sources:
  * `internal/domain/execution.go`        — data model, DTO conversion
  * `internal/repository/execution.go`    — execution table operations
  * repository `batch_history.go`         — batch-history table operations
  * service `execution_service.go`        — ingestion (`processExecution`),
    paging (`List`) and the batch-window send protocol (`Send`)
  * service `trade_service_client.go`     — retry loop (`executeWithRetry`)
  * `internal/service/file_generator.go`  — CSV formatter and file naming
  * `internal/handler/execution.go`       — HTTP status mapping

Conventions of the embedding:
  * Instants are `Int` seconds since the Unix epoch (Go `time.Time` wall
    clock; the monotonic part is irrelevant to the verified code).
  * A Go `time.Time` is an instant together with its `Location`
    (`GoTime`); only UTC and America/New_York occur in the sources.
  * `decimal(18,8)` / money-like `float64` fields are embedded as `Int`
    multiples of 10^-8 (the fixed scale of the schema); `fmt.Sprintf`
    with format `%.8f` is embedded as fixed-point rendering with exactly
    eight fractional digits.
  * Database effects are explicit state passing over `StoreState`; the
    unique indexes of the schema (`execution_service_id`,
    `batch_history.start_time`, `batch_history.previous_start_time`,
    documented in the repository's schema files) are enforced by the
    embedded insert operations.
  * Each service operation that performs several database round trips
    takes one store snapshot per round trip, so interleavings with a
    concurrent writer are expressible; the sequential run is the special
    case where all snapshots agree.
-/

/- ## Go time model -/

/-- Seconds from the Go zero time (0001-01-01T00:00:00Z) to the Unix epoch:
719162 days.  `time.Time{}` (the zero `time.Time`) is this far before the
epoch. -/
def goZeroTimeSec : Int := -62135596800

/-- Days from civil date to days-since-epoch (proleptic Gregorian),
standard era-based algorithm. -/
def daysFromCivil (y m d : Int) : Int :=
  let y' := if m ≤ 2 then y - 1 else y
  let era := Int.fdiv y' 400
  let yoe := y' - era * 400
  let mp := Int.emod (m + 9) 12
  let doy := Int.fdiv (153 * mp + 2) 5 + d - 1
  let doe := yoe * 365 + Int.fdiv yoe 4 - Int.fdiv yoe 100 + doy
  era * 146097 + doe - 719468

/-- Days-since-epoch to civil date (proleptic Gregorian). -/
def civilFromDays (z : Int) : Int × Int × Int :=
  let z' := z + 719468
  let era := Int.fdiv z' 146097
  let doe := z' - era * 146097
  let yoe := Int.fdiv (doe - Int.fdiv doe 1460 + Int.fdiv doe 36524 - Int.fdiv doe 146096) 365
  let y := yoe + era * 400
  let doy := doe - (365 * yoe + Int.fdiv yoe 4 - Int.fdiv yoe 100)
  let mp := Int.fdiv (5 * doy + 2) 153
  let d := doy - Int.fdiv (153 * mp + 2) 5 + 1
  let m := mp + (if mp < 10 then 3 else -9)
  (if m ≤ 2 then y + 1 else y, m, d)

/-- Day-of-week of a days-since-epoch value, Sunday = 0 (1970-01-01 was a
Thursday = 4). -/
def weekday (z : Int) : Int := Int.emod (z + 4) 7

/-- First Sunday on or after the given day. -/
def sundayOnOrAfter (z : Int) : Int := z + Int.emod (-(z + 4)) 7

/-- Instant (UTC seconds) at which US daylight saving starts in year `y`:
second Sunday of March, 02:00 EST = 07:00 UTC (post-2007 rule of the IANA
America/New_York zone loaded by `time.LoadLocation`). -/
def nyDstStart (y : Int) : Int :=
  (sundayOnOrAfter (daysFromCivil y 3 1) + 7) * 86400 + 7 * 3600

/-- Instant (UTC seconds) at which US daylight saving ends in year `y`:
first Sunday of November, 02:00 EDT = 06:00 UTC. -/
def nyDstEnd (y : Int) : Int :=
  (sundayOnOrAfter (daysFromCivil y 11 1)) * 86400 + 6 * 3600

/-- UTC offset, in seconds, of America/New_York at the given instant
(EST = -05:00 outside daylight saving, EDT = -04:00 inside). -/
def nyOffset (t : Int) : Int :=
  let y := (civilFromDays (Int.fdiv t 86400)).1
  if nyDstStart y ≤ t ∧ t < nyDstEnd y then -14400 else -18000

/-- The two `time.Location`s that occur in the sources. -/
inductive Loc
  | utc
  | newYork
  deriving DecidableEq, Repr

/-- UTC offset of a location at an instant. -/
def locOffset : Loc → Int → Int
  | .utc, _ => 0
  | .newYork, t => nyOffset t

/-- Embedding of Go `time.Time`: an absolute instant plus the location used
for presentation.  `In`/`UTC` change the location only; arithmetic and
`Truncate` act on the instant. -/
structure GoTime where
  sec : Int
  loc : Loc
  deriving DecidableEq, Repr

/-- Go `t.In(loc)`. -/
def goIn (t : GoTime) (l : Loc) : GoTime := ⟨t.sec, l⟩

/-- Go `t.UTC()`. -/
def goUTC (t : GoTime) : GoTime := ⟨t.sec, .utc⟩

/-- Go `t.Truncate(24 * time.Hour)`: rounds the absolute time down to a
multiple of 24h since the Go zero time.  The zero time is a midnight UTC,
so the 24h grid coincides with the grid of UTC midnights through the Unix
epoch; the location of `t` plays no role.  The location is kept on the
result, as in Go. -/
def goTruncate24h (t : GoTime) : GoTime :=
  ⟨86400 * Int.fdiv t.sec 86400, t.loc⟩

/-- Decimal rendering of a nonnegative integer, padded on the left with
zeros to the given width (Go zero-padded format verbs). -/
def padNum (width : Nat) (n : Int) : String :=
  let s := toString n.toNat
  ⟨List.replicate (width - s.data.length) '0' ++ s.data⟩

/-- The civil date (year, month, day) of the wall clock of a `GoTime` in
its own location — what Go's `Format` presents. -/
def goCivil (t : GoTime) : Int × Int × Int :=
  civilFromDays (Int.fdiv (t.sec + locOffset t.loc t.sec) 86400)

/-- Go `t.Format("2006-01-02")`. -/
def goFormatDate (t : GoTime) : String :=
  let c := goCivil t
  padNum 4 c.1 ++ "-" ++ padNum 2 c.2.1 ++ "-" ++ padNum 2 c.2.2

/-- Go `t.Format("20060102_150405")` (the file-name timestamp). -/
def goFormatStamp (t : GoTime) : String :=
  let wall := t.sec + locOffset t.loc t.sec
  let c := civilFromDays (Int.fdiv wall 86400)
  let s := Int.emod wall 86400
  padNum 4 c.1 ++ padNum 2 c.2.1 ++ padNum 2 c.2.2 ++ "_" ++
    padNum 2 (Int.fdiv s 3600) ++ padNum 2 (Int.emod (Int.fdiv s 60) 60) ++
    padNum 2 (Int.emod s 60)

/- ## Domain model (`internal/domain/execution.go`) -/

/-- Embedding of `domain.ExecutionPostDTO` — the inbound record.  Money fields are
fixed-scale integers (units of 10^-8). -/
structure ExecutionPostDTO where
  executionServiceId : Int
  isOpen : Bool
  executionStatus : String
  tradeType : String
  destination : String
  securityId : String
  ticker : String
  quantity : Int
  limitPrice : Option Int
  receivedTimestamp : GoTime
  sentTimestamp : GoTime
  lastFillTimestamp : Option GoTime
  quantityFilled : Int
  totalAmount : Int
  averagePrice : Int
  deriving DecidableEq, Repr

/-- Embedding of `domain.Execution` — the persisted allocation record. -/
structure Execution where
  id : Int
  executionServiceId : Int
  isOpen : Bool
  executionStatus : String
  tradeType : String
  destination : String
  tradeDate : GoTime
  securityId : String
  ticker : String
  portfolioId : Option String
  quantity : Int
  limitPrice : Option Int
  receivedTimestamp : GoTime
  sentTimestamp : GoTime
  lastFillTimestamp : Option GoTime
  quantityFilled : Int
  totalAmount : Int
  averagePrice : Int
  readyToSendTimestamp : GoTime
  version : Int
  deriving DecidableEq, Repr

/-- Embedding of `domain.BatchHistory`. -/
structure BatchHistory where
  id : Int
  startTime : GoTime
  previousStartTime : GoTime
  version : Int
  deriving DecidableEq, Repr

/-- Validation of an `ExecutionPostDTO` per its `validate` struct tags
(`required` on a number/time means non-zero; `oneof=BUY SELL`; `gt`/`gte`
as written). -/
def validateDTO (d : ExecutionPostDTO) : Bool :=
  d.executionServiceId ≠ 0 ∧
  d.executionStatus ≠ "" ∧
  (d.tradeType = "BUY" ∨ d.tradeType = "SELL") ∧
  d.destination ≠ "" ∧
  d.securityId ≠ "" ∧
  d.ticker ≠ "" ∧
  d.quantity ≠ 0 ∧ d.quantity > 0 ∧
  d.receivedTimestamp.sec ≠ goZeroTimeSec ∧
  d.sentTimestamp.sec ≠ goZeroTimeSec ∧
  d.quantityFilled ≥ 0 ∧
  d.totalAmount ≥ 0 ∧
  d.averagePrice > 0

/-- The trade-date computation shared by `ExecutionService.dtoToExecution`
and `ExecutionPostDTO.ToExecution`:
`dto.SentTimestamp.In(easternLoc).Truncate(24 * time.Hour)`. -/
def goTradeDate (sent : GoTime) : GoTime :=
  goTruncate24h (goIn sent .newYork)

/-- Embedding of `ExecutionService.dtoToExecution` (service `execution_service.go`):
converts the DTO, carrying the portfolio id from the trade lookup; `now`
is the service's `time.Now()`. -/
def dtoToExecution (now : GoTime) (dto : ExecutionPostDTO) (portfolioID : String) :
    Execution :=
  { id := 0
    executionServiceId := dto.executionServiceId
    isOpen := false
    executionStatus := dto.executionStatus
    tradeType := dto.tradeType
    destination := dto.destination
    tradeDate := goTradeDate dto.sentTimestamp
    securityId := dto.securityId
    ticker := dto.ticker
    portfolioId := some portfolioID
    quantity := dto.quantity
    limitPrice := dto.limitPrice
    receivedTimestamp := goUTC dto.receivedTimestamp
    sentTimestamp := goUTC dto.sentTimestamp
    lastFillTimestamp := dto.lastFillTimestamp
    quantityFilled := dto.quantityFilled
    totalAmount := dto.totalAmount
    averagePrice := dto.averagePrice
    readyToSendTimestamp := goUTC now
    version := 1 }

/- ## Store model (repository layer) -/

/-- The persistent store: the `execution` and `batch_history` tables, in
commit order, with their serial-id counters.  The unique indexes
(`execution_service_id` on `execution`; `start_time` and
`previous_start_time` on `batch_history`) are enforced by the insert
operations below. -/
structure StoreState where
  executions : List Execution
  batchHistory : List BatchHistory
  nextExecId : Int
  nextBatchId : Int
  deriving DecidableEq, Repr

/-- The initial, empty store. -/
def StoreState.empty : StoreState := ⟨[], [], 1, 1⟩

/-- Driver text of a PostgreSQL unique-constraint violation, as `lib/pq`
surfaces it (`err.Error()` of the `*pq.Error`).  The exact constraint name
varies with the index hit; any such message is of this shape. -/
def pqUniqueMsg (constraint : String) : String :=
  "pq: duplicate key value violates unique constraint " ++ constraint

/-- Embedding of `ExecutionRepository.Create` (`internal/repository/execution.go`):
INSERT of all columns taken verbatim from the caller's record (including
`ready_to_send_timestamp`), `RETURNING id`; the unique index on
`execution_service_id` rejects a duplicate, which the repository wraps as
`failed to create execution: <pq error>`. -/
def executionRepoCreate (st : StoreState) (e : Execution) :
    Except String (StoreState × Int) :=
  if st.executions.any (fun x => x.executionServiceId = e.executionServiceId) then
    .error ("failed to create execution: " ++
      pqUniqueMsg "execution_execution_service_id_key")
  else
    let assigned := { e with id := st.nextExecId }
    .ok ({ st with executions := st.executions ++ [assigned],
                   nextExecId := st.nextExecId + 1 }, st.nextExecId)

/-- Embedding of `ExecutionRepository.GetByExecutionServiceID`: SELECT by the unique
`execution_service_id`; `sql.ErrNoRows` becomes an error, a row is
returned otherwise. -/
def executionRepoGetByServiceId (st : StoreState) (sid : Int) :
    Except String Execution :=
  match st.executions.find? (fun x => x.executionServiceId = sid) with
  | some e => .ok e
  | none => .error ("execution not found for service ID: " ++ toString sid)

/-- Comparison used by `ORDER BY id DESC`. -/
def idDescLe (a b : Execution) : Prop := b.id ≤ a.id

instance : DecidableRel idDescLe := fun a b => Int.decLe b.id a.id

/-- Embedding of `ExecutionRepository.List`: `SELECT COUNT(*)` and
`SELECT * FROM execution ORDER BY id DESC LIMIT $1 OFFSET $2` (SQL
ordering embedded as a stable sort by the comparison). -/
def executionRepoList (st : StoreState) (limit offset : Nat) :
    List Execution × Nat :=
  (((st.executions.insertionSort idDescLe).drop offset).take limit,
    st.executions.length)

/-- Comparison used by `ORDER BY ready_to_send_timestamp ASC`. -/
def rtsAscLe (a b : Execution) : Prop :=
  a.readyToSendTimestamp.sec ≤ b.readyToSendTimestamp.sec

instance : DecidableRel rtsAscLe :=
  fun a b => Int.decLe a.readyToSendTimestamp.sec b.readyToSendTimestamp.sec

/-- Embedding of `ExecutionRepository.GetForBatch`: allocations with
`startTime ≤ ready_to_send_timestamp < endTime`, ordered ascending by
`ready_to_send_timestamp`. -/
def executionRepoGetForBatch (st : StoreState) (startTime endTime : GoTime) :
    List Execution :=
  (st.executions.filter (fun e =>
      startTime.sec ≤ e.readyToSendTimestamp.sec ∧
      e.readyToSendTimestamp.sec < endTime.sec)).insertionSort rtsAscLe

/-- Embedding of `BatchHistoryRepository.GetMaxStartTime`:
`SELECT MAX(start_time) FROM batch_history`; when the table is empty the
`sql.NullTime` is invalid and the zero `time.Time` (0001-01-01T00:00:00Z)
is returned. -/
def batchRepoGetMaxStartTime (st : StoreState) : GoTime :=
  match (st.batchHistory.map (fun r => r.startTime.sec)).max? with
  | none => ⟨goZeroTimeSec, .utc⟩
  | some m => ⟨m, .utc⟩

/-- Embedding of `BatchHistoryRepository.Create`: INSERT of `start_time`,
`previous_start_time` and `version` taken verbatim from the caller's
record, `RETURNING id`.  Either unique index (`start_time` or
`previous_start_time`) rejects a duplicate; the repository wraps any
driver error as `failed to create batch history: <pq error>`. -/
def batchRepoCreate (st : StoreState) (b : BatchHistory) :
    Except String (StoreState × Int) :=
  if st.batchHistory.any (fun r => r.startTime.sec = b.startTime.sec) then
    .error ("failed to create batch history: " ++
      pqUniqueMsg "batch_history_start_time_ndx")
  else if st.batchHistory.any
      (fun r => r.previousStartTime.sec = b.previousStartTime.sec) then
    .error ("failed to create batch history: " ++
      pqUniqueMsg "batch_history_previous_start_time_ndx")
  else
    let assigned := { b with id := st.nextBatchId }
    .ok ({ st with batchHistory := st.batchHistory ++ [assigned],
                   nextBatchId := st.nextBatchId + 1 }, st.nextBatchId)

/- ## Trade lookup payload and service layer (service `execution_service.go`) -/

/-- The single field of the Trade Service payload the core consumes:
`executions[i].TradeOrder.Portfolio.PortfolioID` (nesting flattened). -/
structure TradeExecution where
  tradeOrderPortfolioId : String
  deriving DecidableEq, Repr

/-- Embedding of `domain.TradeServiceExecutionResponse`. -/
structure TradeResponse where
  executions : List TradeExecution
  deriving DecidableEq, Repr

/-- Embedding of `ExecutionService.getPortfolioIDFromTradeService`: interprets the
trade-lookup result; the HTTP exchange itself is abstracted into the
`resp` argument. -/
def getPortfolioIDFromTradeService (resp : Except String TradeResponse)
    (sid : Int) : Except String String :=
  match resp with
  | .error e => .error ("trade service call failed: " ++ e)
  | .ok r =>
    match r.executions with
    | [] => .error ("no execution found in trade service for ID " ++ toString sid)
    | x :: _ =>
      if x.tradeOrderPortfolioId = "" then
        .error ("portfolio ID is empty for execution service ID " ++ toString sid)
      else
        .ok x.tradeOrderPortfolioId

/-- Embedding of `domain.ExecutionResult` — the per-record outcome of ingestion. -/
structure ExecutionResult where
  executionServiceId : Int
  status : String
  error : String
  executionId : Option Int
  deriving DecidableEq, Repr

/-- Embedding of `ExecutionService.processExecution`: validate, drop open executions,
idempotency probe, portfolio lookup, insert.  The probe and the insert are
separate database round trips, so each takes its own store snapshot
(`stProbe`, `stInsert`); a sequential run has `stInsert = stProbe`.
Returns the store after the insert round trip together with the
per-record result. -/
def processExecution (stProbe stInsert : StoreState) (now : GoTime)
    (dto : ExecutionPostDTO) (tradeResp : Except String TradeResponse) :
    StoreState × ExecutionResult :=
  if ¬ validateDTO dto then
    (stInsert, ⟨dto.executionServiceId, "error", "validation failed", none⟩)
  else if dto.isOpen then
    (stInsert, ⟨dto.executionServiceId, "skipped", "execution is still open", none⟩)
  else
    match executionRepoGetByServiceId stProbe dto.executionServiceId with
    | .ok existing =>
      (stInsert,
        ⟨dto.executionServiceId, "skipped", "execution already exists",
          some existing.id⟩)
    | .error _ =>
      match getPortfolioIDFromTradeService tradeResp dto.executionServiceId with
      | .error e =>
        (stInsert,
          ⟨dto.executionServiceId, "error", "failed to get portfolio ID: " ++ e,
            none⟩)
      | .ok portfolioID =>
        let execution := dtoToExecution now dto portfolioID
        match executionRepoCreate stInsert execution with
        | .error e =>
          (stInsert,
            ⟨dto.executionServiceId, "error", "failed to create execution: " ++ e,
              none⟩)
        | .ok (st', id) =>
          (st', ⟨dto.executionServiceId, "created", "", some id⟩)

/-- Embedding of `domain.PaginationInfo`. -/
structure PaginationInfo where
  totalElements : Int
  totalPages : Int
  currentPage : Int
  pageSize : Int
  hasNext : Bool
  hasPrevious : Bool
  deriving DecidableEq, Repr

/-- Embedding of `ExecutionService.List`: clamps the limit (`≤ 0 ↦ 50`, `> 1000 ↦ 1000`),
reads the page and derives pagination. -/
def executionServiceList (st : StoreState) (limit offset : Int) :
    List Execution × PaginationInfo :=
  let l1 := if limit ≤ 0 then 50 else limit
  let l := if l1 > 1000 then 1000 else l1
  let page := executionRepoList st l.toNat offset.toNat
  let totalCount : Int := page.2
  (page.1,
    { totalElements := totalCount
      totalPages := (totalCount + l - 1) / l
      currentPage := offset / l
      pageSize := l
      hasNext := offset + l < totalCount
      hasPrevious := offset > 0 })

/-- Embedding of `domain.SendResponse`. -/
structure SendResponse where
  processedCount : Int
  fileName : String
  status : String
  message : String
  deriving DecidableEq, Repr

/-- A Go `(*domain.SendResponse, error)` pair — both can be non-nil on the
CLI-failure path. -/
structure SendReturn where
  resp : Option SendResponse
  err : Option String
  deriving DecidableEq, Repr

/-- The `FileGeneratorService` file name:
`fmt.Sprintf("transactions_%s.csv", time.Now().Format("20060102_150405"))`.
`fileClock` is the generator's `time.Now()` — note that it carries the
process-local location (there is no `.UTC()` here, unlike in `Send`). -/
def generateFilename (fileClock : GoTime) : String :=
  "transactions_" ++ goFormatStamp fileClock ++ ".csv"

/-- Embedding of `FileGeneratorService.GetFilePath` / `filepath.Join(s.outputDir, filename)`
for a clean directory path without a trailing separator. -/
def generatedFilePath (outputDir filename : String) : String :=
  outputDir ++ "/" ++ filename

/-- Embedding of `ExecutionService.Send` — the batch-window send protocol.  The
max-start-time read and the batch-history insert are separate round
trips, so each takes a snapshot (`stRead`, `stClaim`); a sequential run
has `stClaim = stRead`.  The selection runs on the store produced by the
claim.  `now` is the service's `time.Now().UTC()`; `fileClock` the file
generator's `time.Now()`; `cliResult` the outcome of the Portfolio
Accounting CLI invocation.  File-system writes and the optional cleanup
step touch no store state and no reported field, so they are not
represented.  Returns the resulting store and the `(response, error)`
pair. -/
def goSend (stRead stClaim : StoreState) (now : Int) (fileClock : GoTime)
    (cliResult : Except String Unit) : StoreState × SendReturn :=
  let previousStartTime := batchRepoGetMaxStartTime stRead
  let currentTime : GoTime := ⟨now, .utc⟩
  let batchHistory : BatchHistory :=
    ⟨0, currentTime, previousStartTime, 1⟩
  match batchRepoCreate stClaim batchHistory with
  | .error e =>
    if e = "duplicate batch detected" then
      (stClaim, ⟨none, some "duplicate batch process already started"⟩)
    else
      (stClaim, ⟨none, some ("failed to create batch history: " ++ e)⟩)
  | .ok (stClaimed, _) =>
    let executions := executionRepoGetForBatch stClaimed previousStartTime currentTime
    if executions.length = 0 then
      (stClaimed,
        ⟨some ⟨0, "", "success", "No executions to process"⟩, none⟩)
    else
      let filename := generateFilename fileClock
      match cliResult with
      | .error e =>
        (stClaimed,
          ⟨some ⟨executions.length, filename, "error", "CLI invocation failed: " ++ e⟩,
            some ("CLI invocation failed: " ++ e)⟩)
      | .ok _ =>
        (stClaimed,
          ⟨some ⟨executions.length, filename, "success",
              "Portfolio Accounting CLI executed successfully"⟩, none⟩)

/-- Embedding of `ExecutionHandler.SendExecutions` status mapping
(`internal/handler/execution.go`): the exact error string
`duplicate batch process already started` maps to 409, any other error to
500; with no error, a response whose status is `error` maps to 500 and
everything else to 200. -/
def sendExecutionsHTTPStatus (r : SendReturn) : Int :=
  match r.err with
  | some m => if m = "duplicate batch process already started" then 409 else 500
  | none =>
    match r.resp with
    | some resp => if resp.status = "error" then 500 else 200
    | none => 200

/- ## Trade lookup client retry loop (service `trade_service_client.go`) -/

/-- Outcome of one `executeRequest` call: success, an HTTP status-class
error (`*HTTPError`, produced for any response with status ≥ 400), or a
non-HTTP failure (transport error, body-read error, decode error). -/
inductive AttemptOutcome
  | success
  | httpError (code : Int)
  | failure (msg : String)
  deriving DecidableEq, Repr

/-- The client-error test of `executeWithRetry`:
`httpErr.StatusCode >= 400 && httpErr.StatusCode < 500` on an `*HTTPError`. -/
def is4xx : AttemptOutcome → Bool
  | .httpError c => 400 ≤ c ∧ c < 500
  | _ => false

/-- Returns `true` when the loop proceeds to another iteration after this outcome:
the attempt neither succeeded nor hit a 4xx. -/
def continuesAfter (o : AttemptOutcome) : Bool :=
  match o with
  | .success => false
  | o => ¬ is4xx o

/-- Observable trace of `executeWithRetry`: how many requests were issued,
the waits performed before retries (in order), and whether the caller saw
success. -/
structure RetryTrace where
  requests : Nat
  delays : List Int
  success : Bool
  deriving DecidableEq, Repr

/-- The loop body of `executeWithRetry` from iteration `attempt` on, with
`fuel = maxRetries + 1 - attempt` remaining iterations.  Each iteration
first waits `attempt × baseDelay` (when `attempt > 0`), then issues the
request; success returns immediately, a 4xx breaks, anything else
continues. -/
def runRetryFrom (baseDelay : Int) (outcomes : Nat → AttemptOutcome) :
    Nat → Nat → RetryTrace
  | _, 0 => ⟨0, [], false⟩
  | attempt, fuel + 1 =>
    let delays := if attempt > 0 then [(attempt : Int) * baseDelay] else []
    match outcomes attempt with
    | .success => ⟨1, delays, true⟩
    | o =>
      if is4xx o then ⟨1, delays, false⟩
      else
        let rest := runRetryFrom baseDelay outcomes (attempt + 1) fuel
        ⟨1 + rest.requests, delays ++ rest.delays, rest.success⟩

/-- Embedding of `TradeServiceClient.executeWithRetry`:
`for attempt := 0; attempt <= c.maxRetries; attempt++`, so
`maxRetries + 1` requests at most. -/
def executeWithRetry (baseDelay : Int) (maxRetries : Nat)
    (outcomes : Nat → AttemptOutcome) : RetryTrace :=
  runRetryFrom baseDelay outcomes 0 (maxRetries + 1)

/- ## File formatter (`internal/service/file_generator.go`) -/

/-- Character of a decimal digit. -/
def decDigit (n : Nat) : Char := Char.ofNat (48 + n % 10)

/-- The eight fractional digits of a value `m < 10^8` of 10^-8 units,
most significant first. -/
def fracDigits8 (m : Nat) : List Char :=
  [ decDigit (m / 10000000), decDigit (m / 1000000), decDigit (m / 100000),
    decDigit (m / 10000), decDigit (m / 1000), decDigit (m / 100),
    decDigit (m / 10), decDigit m ]

/-- Embedding of `fmt.Sprintf("%.8f", x)` at the fixed scale of the embedding: the
integer part followed by exactly eight fractional digits. -/
def fmtFixed8 (v : Int) : String :=
  (if v < 0 then "-" else "") ++ toString (v.natAbs / 100000000) ++ "." ++
    ⟨fracDigits8 (v.natAbs % 100000000)⟩

/-- The test of `executionToCSVLine`'s escaping step:
`strings.Contains(field, ",") || strings.Contains(field, "\"") ||
strings.Contains(field, "\n")`. -/
def needsQuoting (f : String) : Bool :=
  f.data.any (fun c => c = ',' ∨ c = '"' ∨ c = '\n')

/-- Embedding of `strings.ReplaceAll(field, "\"", "\"\"")` at character level. -/
def escQuotes : List Char → List Char
  | [] => []
  | c :: cs => if c = '"' then '"' :: '"' :: escQuotes cs else c :: escQuotes cs

/-- The escaping step of `executionToCSVLine`. -/
def escapeField (f : String) : String :=
  if needsQuoting f then ⟨'"' :: (escQuotes f.data ++ ['"'])⟩ else f

/-- Embedding of `strings.Join(fields, sep)`. -/
def goStringsJoin (sep : String) : List String → String
  | [] => ""
  | [x] => x
  | x :: xs => x ++ sep ++ goStringsJoin sep xs

/-- The seven raw field values of `executionToCSVLine`, in emission
order. -/
def csvFields (e : Execution) : List String :=
  [ (match e.portfolioId with | some p => p | none => ""),
    e.securityId,
    "AC" ++ toString e.id,
    e.tradeType,
    fmtFixed8 e.quantity,
    fmtFixed8 e.averagePrice,
    goFormatDate e.tradeDate ]

/-- Embedding of `FileGeneratorService.executionToCSVLine`. -/
def executionToCSVLine (e : Execution) : String :=
  goStringsJoin "," ((csvFields e).map escapeField) ++ "\n"

/-- The header line written by `GeneratePortfolioAccountingFile`. -/
def csvHeader : String :=
  "portfolio_id,security_id,source_id,transaction_type,quantity,price,transaction_date\n"

/-- Concatenation of the per-record lines, in input order (the write
loop of `GeneratePortfolioAccountingFile`). -/
def goConcat : List String → String
  | [] => ""
  | x :: xs => x ++ goConcat xs

/-- The full content written by `GeneratePortfolioAccountingFile`. -/
def generateFileContent (execs : List Execution) : String :=
  csvHeader ++ goConcat (execs.map executionToCSVLine)

/- ### A CSV record reader, used to state that the emitted escaping is
invertible (spec side, RFC-4180 quoting rules) -/

/-- Scanner state: at a field start, inside an unquoted field, inside a
quoted field, or just after a closing quote. -/
inductive CSVMode
  | start
  | unq
  | q
  | postq
  deriving DecidableEq, Repr

/-- Reads one newline-terminated CSV record; `acc` is the reversed current
field, `fields` the reversed fields so far.  Returns the field values with
quoting undone, or `none` for ill-formed input. -/
def csvScan : CSVMode → List Char → List Char → List String → Option (List String)
  | _, _, [], _ => none
  | .start, acc, c :: cs, fields =>
    if c = '"' then csvScan .q acc cs fields
    else if c = ',' then csvScan .start [] cs (String.mk acc.reverse :: fields)
    else if c = '\n' then
      (if cs.isEmpty then some ((String.mk acc.reverse :: fields).reverse) else none)
    else csvScan .unq (c :: acc) cs fields
  | .unq, acc, c :: cs, fields =>
    if c = ',' then csvScan .start [] cs (String.mk acc.reverse :: fields)
    else if c = '\n' then
      (if cs.isEmpty then some ((String.mk acc.reverse :: fields).reverse) else none)
    else csvScan .unq (c :: acc) cs fields
  | .q, acc, c :: cs, fields =>
    if c = '"' then csvScan .postq acc cs fields
    else csvScan .q (c :: acc) cs fields
  | .postq, acc, c :: cs, fields =>
    if c = '"' then csvScan .q ('"' :: acc) cs fields
    else if c = ',' then csvScan .start [] cs (String.mk acc.reverse :: fields)
    else if c = '\n' then
      (if cs.isEmpty then some ((String.mk acc.reverse :: fields).reverse) else none)
    else none

/-- Reads a full CSV record line (including its terminating newline). -/
def readCSVRecord (s : String) : Option (List String) :=
  csvScan .start [] s.data []

/- ## Spec-side reference definitions (for comparison with the code) -/

/-- The spec's reading of the trade-date derivation: project the instant
into America/New_York and truncate to midnight **in that local zone** —
the instant of Eastern local midnight of the Eastern calendar day
containing the instant (offset taken at the instant itself). -/
def easternMidnightTrunc (sent : GoTime) : Int :=
  86400 * Int.fdiv (sent.sec + nyOffset sent.sec) 86400 - nyOffset sent.sec

/-- The spec's reading of the transaction file name: the current instant
rendered in UTC. -/
def filenameRenderedUTC (now : Int) : String :=
  "transactions_" ++ goFormatStamp ⟨now, .utc⟩ ++ ".csv"

/- ## Concrete sample data for counterexamples and witnesses -/

/-- A closed, valid allocation record with the given external id and
ready-to-send instant (other fields fixed representative values). -/
def sampleExec (sid rts : Int) : Execution :=
  { id := 0
    executionServiceId := sid
    isOpen := false
    executionStatus := "FILLED"
    tradeType := "BUY"
    destination := "NYSE"
    tradeDate := ⟨1705276800, .newYork⟩
    securityId := "SEC000000000000000000ABC"
    ticker := "AAPL"
    portfolioId := some "PORTFOLIO123456789012"
    quantity := 10050000000
    limitPrice := none
    receivedTimestamp := ⟨1705311600, .utc⟩
    sentTimestamp := ⟨1705311660, .utc⟩
    lastFillTimestamp := none
    quantityFilled := 10050000000
    totalAmount := 1507500000000
    averagePrice := 15000000000
    readyToSendTimestamp := ⟨rts, .utc⟩
    version := 1 }

/-- A closed, valid inbound record (passes `validateDTO`). -/
def sampleDTO : ExecutionPostDTO :=
  { executionServiceId := 123
    isOpen := false
    executionStatus := "FILLED"
    tradeType := "BUY"
    destination := "NYSE"
    securityId := "SEC000000000000000000ABC"
    ticker := "AAPL"
    quantity := 10050000000
    limitPrice := none
    receivedTimestamp := ⟨1705311600, .utc⟩
    sentTimestamp := ⟨1705311660, .utc⟩
    lastFillTimestamp := none
    quantityFilled := 10050000000
    totalAmount := 1507500000000
    averagePrice := 15000000000 }

/-- Sequential `ExecutionRepository.Create` calls, stopping at the first
failure (a client of the repository, used to examine committed
sequences). -/
def executionRepoCreateMany (st : StoreState) : List Execution → Except String StoreState
  | [] => .ok st
  | e :: es =>
    match executionRepoCreate st e with
    | .error m => .error m
    | .ok (st', _) => executionRepoCreateMany st' es

/- ## Claim C6 -/

/-- Claim C6. The claim says the persisted `tradeDate` is `sentTimestamp`
truncated to midnight in the America/New_York zone.  The code computes
`dto.SentTimestamp.In(easternLoc).Truncate(24 * time.Hour)`, and Go's
`Truncate` works on absolute time (the UTC 24h grid), ignoring the
location.  At `sentTimestamp = 2024-01-15T01:00:00Z` (Eastern calendar
day 2024-01-14) the code stores the instant 2024-01-15T00:00:00Z, while
truncation to Eastern midnight gives 2024-01-14T05:00:00Z: the code does
not implement the Eastern-midnight truncation its own comment ("trade
date based on US Eastern Time") announces. -/
theorem c6_tradeDate_is_utc_truncation_not_eastern_midnight :
    (goTradeDate ⟨1705280400, .utc⟩).sec = 1705276800 ∧
    easternMidnightTrunc ⟨1705280400, .utc⟩ = 1705208400 ∧
    (goTradeDate ⟨1705280400, .utc⟩).sec ≠ easternMidnightTrunc ⟨1705280400, .utc⟩ := by
  refine ⟨by decide, by decide, by decide⟩

/- ## Claim C3 -/

/-- Claim C3 counterexample. The claim says an empty claimed window yields
`status = "empty"`.  Running `Send` sequentially on an empty store (the
window `[zero, 100)` contains no allocations) yields a response whose
status is `"success"` (message `No executions to process`), not
`"empty"`; no `"empty"` status exists anywhere in the code. -/
theorem c3_empty_window_status_is_success_not_empty :
    (goSend StoreState.empty StoreState.empty 100 ⟨100, .utc⟩ (.ok ())).2 =
      ⟨some ⟨0, "", "success", "No executions to process"⟩, none⟩ ∧
    "success" ≠ "empty" := by
  refine ⟨by decide, by decide⟩

/-- Claim C3, amended. For every `Send` whose batch-history insert commits
and whose claimed window `[prev, now)` contains no allocations, the result
is the response `processed = 0`, `fileName = ""`, `status = "success"`,
`message = "No executions to process"` with no error, and the
batch-history row for the window is still recorded (appended to the
table with `previousStartTime = prev` and `startTime = now`): the window
is consumed. -/
theorem c3_empty_window_recorded (stRead stClaim st' : StoreState) (now bid : Int)
    (fc : GoTime) (cli : Except String Unit)
    (hcreate : batchRepoCreate stClaim
      ⟨0, ⟨now, .utc⟩, batchRepoGetMaxStartTime stRead, 1⟩ = .ok (st', bid))
    (hempty : executionRepoGetForBatch st' (batchRepoGetMaxStartTime stRead)
      ⟨now, .utc⟩ = []) :
    goSend stRead stClaim now fc cli =
      (st', ⟨some ⟨0, "", "success", "No executions to process"⟩, none⟩) ∧
    st'.batchHistory = stClaim.batchHistory ++
      [⟨stClaim.nextBatchId, ⟨now, .utc⟩, batchRepoGetMaxStartTime stRead, 1⟩] := by
  constructor
  · simp only [goSend, hcreate, hempty, List.length_nil, if_pos]
  · unfold batchRepoCreate at hcreate
    split at hcreate
    · exact absurd hcreate (by simp)
    · split at hcreate
      · exact absurd hcreate (by simp)
      · simp only [Except.ok.injEq, Prod.mk.injEq] at hcreate
        rw [← hcreate.1]

/-- Witness for `c3_empty_window_recorded`: the sequential empty-store
send at `now = 100`. -/
theorem c3_empty_window_recorded_witness :
    goSend StoreState.empty StoreState.empty 100 ⟨100, .utc⟩ (.ok ()) =
      (⟨[], [⟨1, ⟨100, .utc⟩, ⟨goZeroTimeSec, .utc⟩, 1⟩], 1, 2⟩,
        ⟨some ⟨0, "", "success", "No executions to process"⟩, none⟩) ∧
    (⟨[], [⟨1, ⟨100, .utc⟩, ⟨goZeroTimeSec, .utc⟩, 1⟩], 1, 2⟩ : StoreState).batchHistory =
      StoreState.empty.batchHistory ++
        [⟨StoreState.empty.nextBatchId, ⟨100, .utc⟩,
          batchRepoGetMaxStartTime StoreState.empty, 1⟩] :=
  c3_empty_window_recorded StoreState.empty StoreState.empty
    ⟨[], [⟨1, ⟨100, .utc⟩, ⟨goZeroTimeSec, .utc⟩, 1⟩], 1, 2⟩ 100 1 ⟨100, .utc⟩ (.ok ())
    (by rfl) (by rfl)


/- ## Claim C5 -/

/-- Claim C5 counterexample. The claim says the inserted batch-history row's
`startTime` is store-assigned and that `prev` falls back to the epoch.
Over the same (empty) store, two `Send` invocations whose service clocks
read 100 and 200 record rows with `startTime` 100 and 200 respectively:
the recorded `startTime` is the service's `time.Now().UTC()` passed into
the INSERT, not a value assigned by the store.  Moreover the empty-table
`previousStartTime` is the zero `time.Time` (0001-01-01T00:00:00Z), not
the Unix epoch. -/
theorem c5_startTime_caller_supplied_counterexample :
    (goSend StoreState.empty StoreState.empty 100 ⟨100, .utc⟩ (.ok ())).1.batchHistory =
      [⟨1, ⟨100, .utc⟩, ⟨goZeroTimeSec, .utc⟩, 1⟩] ∧
    (goSend StoreState.empty StoreState.empty 200 ⟨200, .utc⟩ (.ok ())).1.batchHistory =
      [⟨1, ⟨200, .utc⟩, ⟨goZeroTimeSec, .utc⟩, 1⟩] ∧
    (GoTime.mk 100 .utc) ≠ ⟨200, .utc⟩ ∧
    goZeroTimeSec ≠ 0 := by
  refine ⟨by rfl, by rfl, by decide, by decide⟩

/-- The `MAX` of a list of `Int`s bounds every member. -/
theorem intList_le_max (l : List Int) (m : Int) (h : l.max? = some m) :
    ∀ b ∈ l, b ≤ m :=
  (List.max?_le_iff (fun _ _ _ => max_le_iff) h).mp (le_refl m)

/-- The `MAX` of a list of `Int`s is attained by a member. -/
theorem intList_max_mem (l : List Int) (m : Int) (h : l.max? = some m) :
    m ∈ l :=
  List.max?_mem (fun a b => max_choice a b) h

/-- Characterization: `GetMaxStartTime` returns the zero instant on an empty table, and the
attained maximum of the recorded `startTime`s otherwise. -/
theorem batchRepoGetMaxStartTime_spec (st : StoreState) :
    (st.batchHistory = [] ∧ (batchRepoGetMaxStartTime st).sec = goZeroTimeSec) ∨
    ((∃ b ∈ st.batchHistory, (batchRepoGetMaxStartTime st).sec = b.startTime.sec) ∧
      ∀ b ∈ st.batchHistory, b.startTime.sec ≤ (batchRepoGetMaxStartTime st).sec) := by
  unfold batchRepoGetMaxStartTime
  cases hmax : (st.batchHistory.map (fun r => r.startTime.sec)).max? with
  | none =>
    left
    have hnil : st.batchHistory = [] := by
      rcases hl : st.batchHistory with _ | ⟨r, rs⟩
      · rfl
      · rw [hl] at hmax
        simp [List.max?] at hmax
    exact ⟨hnil, rfl⟩
  | some m =>
    right
    constructor
    · rcases List.mem_map.mp (intList_max_mem _ m hmax) with ⟨b, hb, hbm⟩
      exact ⟨b, hb, hbm.symm⟩
    · intro b hb
      exact intList_le_max _ m hmax _ (List.mem_map_of_mem _ hb)

/-- Claim C5, amended. For every `Send` whose batch-history insert commits:
`prev = batchRepoGetMaxStartTime` bounds every existing row's `startTime`
and is attained by one of them — or is the zero instant
(0001-01-01T00:00:00Z) when the table is empty; the inserted row carries
`previousStartTime = prev` and `startTime = now`, the service's
`time.Now().UTC()` (caller-supplied, not store-assigned); and the
resulting selection window is exactly the allocations with
`prev ≤ readyToSendTimestamp < now`. -/
theorem c5_claim_window (stRead stClaim st' : StoreState) (now bid : Int)
    (fc : GoTime) (cli : Except String Unit)
    (hcreate : batchRepoCreate stClaim
      ⟨0, ⟨now, .utc⟩, batchRepoGetMaxStartTime stRead, 1⟩ = .ok (st', bid)) :
    (∀ b ∈ stRead.batchHistory,
      b.startTime.sec ≤ (batchRepoGetMaxStartTime stRead).sec) ∧
    ((∃ b ∈ stRead.batchHistory,
        (batchRepoGetMaxStartTime stRead).sec = b.startTime.sec) ∨
      (stRead.batchHistory = [] ∧
        (batchRepoGetMaxStartTime stRead).sec = goZeroTimeSec)) ∧
    st'.batchHistory = stClaim.batchHistory ++
      [⟨stClaim.nextBatchId, ⟨now, .utc⟩, batchRepoGetMaxStartTime stRead, 1⟩] ∧
    (goSend stRead stClaim now fc cli).1 = st' ∧
    (∀ e, e ∈ executionRepoGetForBatch st' (batchRepoGetMaxStartTime stRead)
        ⟨now, .utc⟩ ↔
      (e ∈ st'.executions ∧
        (batchRepoGetMaxStartTime stRead).sec ≤ e.readyToSendTimestamp.sec ∧
        e.readyToSendTimestamp.sec < now)) := by
  refine ⟨?_, ?_, ?_, ?_, ?_⟩
  · rcases batchRepoGetMaxStartTime_spec stRead with ⟨hnil, _⟩ | ⟨_, hle⟩
    · intro b hb
      rw [hnil] at hb
      exact absurd hb (List.not_mem_nil b)
    · exact hle
  · rcases batchRepoGetMaxStartTime_spec stRead with ⟨hnil, hz⟩ | ⟨hmem, _⟩
    · exact Or.inr ⟨hnil, hz⟩
    · exact Or.inl hmem
  · unfold batchRepoCreate at hcreate
    split at hcreate
    · exact absurd hcreate (by simp)
    · split at hcreate
      · exact absurd hcreate (by simp)
      · simp only [Except.ok.injEq, Prod.mk.injEq] at hcreate
        rw [← hcreate.1]
  · simp only [goSend, hcreate]
    split
    · rfl
    · rcases cli with _ | _ <;> rfl
  · intro e
    unfold executionRepoGetForBatch
    rw [(List.perm_insertionSort rtsAscLe _).mem_iff, List.mem_filter]
    simp only [decide_eq_true_eq]

/-- Witness for `c5_claim_window`: a store holding one prior window row
with `startTime = 50`, claimed at `now = 100`. -/
theorem c5_claim_window_witness :
    (⟨[], [⟨1, ⟨50, .utc⟩, ⟨goZeroTimeSec, .utc⟩, 1⟩,
            ⟨2, ⟨100, .utc⟩, ⟨50, .utc⟩, 1⟩], 1, 3⟩ : StoreState).batchHistory =
      (⟨[], [⟨1, ⟨50, .utc⟩, ⟨goZeroTimeSec, .utc⟩, 1⟩], 1, 2⟩ : StoreState).batchHistory ++
        [⟨2, ⟨100, .utc⟩,
          batchRepoGetMaxStartTime ⟨[], [⟨1, ⟨50, .utc⟩, ⟨goZeroTimeSec, .utc⟩, 1⟩], 1, 2⟩,
          1⟩] ∧
    (goSend ⟨[], [⟨1, ⟨50, .utc⟩, ⟨goZeroTimeSec, .utc⟩, 1⟩], 1, 2⟩
        ⟨[], [⟨1, ⟨50, .utc⟩, ⟨goZeroTimeSec, .utc⟩, 1⟩], 1, 2⟩
        100 ⟨100, .utc⟩ (.ok ())).1 =
      ⟨[], [⟨1, ⟨50, .utc⟩, ⟨goZeroTimeSec, .utc⟩, 1⟩,
            ⟨2, ⟨100, .utc⟩, ⟨50, .utc⟩, 1⟩], 1, 3⟩ := by
  have h := c5_claim_window
    ⟨[], [⟨1, ⟨50, .utc⟩, ⟨goZeroTimeSec, .utc⟩, 1⟩], 1, 2⟩
    ⟨[], [⟨1, ⟨50, .utc⟩, ⟨goZeroTimeSec, .utc⟩, 1⟩], 1, 2⟩
    ⟨[], [⟨1, ⟨50, .utc⟩, ⟨goZeroTimeSec, .utc⟩, 1⟩,
          ⟨2, ⟨100, .utc⟩, ⟨50, .utc⟩, 1⟩], 1, 3⟩
    100 2 ⟨100, .utc⟩ (.ok ()) (by rfl)
  exact ⟨h.2.2.1, h.2.2.2.1⟩

/- ## Claim C4 -/

/-- Claim C4 counterexample. The claim says `readyToSendTimestamp` is
assigned by the store at insert time and is non-decreasing in commit
order.  The INSERT passes the caller's `ready_to_send_timestamp` value
verbatim (the column default is bypassed): committing two records whose
caller-supplied values are 5 and then 3 stores exactly 5 and then 3 — the
store neither assigns the value nor enforces monotonicity, and the
committed sequence decreases. -/
theorem c4_rts_not_store_assigned_counterexample :
    executionRepoCreateMany StoreState.empty [sampleExec 1 5, sampleExec 2 3] =
      .ok ⟨[{ sampleExec 1 5 with id := 1 }, { sampleExec 2 3 with id := 2 }],
            [], 3, 1⟩ ∧
    ({ sampleExec 1 5 with id := 1 } : Execution).readyToSendTimestamp.sec = 5 ∧
    ({ sampleExec 2 3 with id := 2 } : Execution).readyToSendTimestamp.sec = 3 ∧
    ¬ ((5 : Int) ≤ 3) := by
  refine ⟨by rfl, by rfl, by rfl, by decide⟩

/-- Claim C4, amended. `readyToSendTimestamp` is supplied by the caller:
the service sets it to its own clock (`time.Now().UTC()`) during DTO
conversion, and a committed insert stores the record (hence the value)
verbatim, only replacing `id` with the store's serial.  Monotonicity
across persisted allocations therefore holds only as far as the service
clocks that produced the inserts are monotone in commit order. -/
theorem c4_rts_caller_supplied (st st' : StoreState) (e : Execution) (idv : Int)
    (h : executionRepoCreate st e = .ok (st', idv)) :
    st'.executions = st.executions ++ [{ e with id := st.nextExecId }] ∧
    ({ e with id := st.nextExecId } : Execution).readyToSendTimestamp =
      e.readyToSendTimestamp ∧
    (∀ now dto pid,
      (dtoToExecution now dto pid).readyToSendTimestamp = goUTC now) := by
  refine ⟨?_, rfl, fun now dto pid => rfl⟩
  unfold executionRepoCreate at h
  split at h
  · exact absurd h (by simp)
  · simp only [Except.ok.injEq, Prod.mk.injEq] at h
    rw [← h.1]

/-- Witness for `c4_rts_caller_supplied`: the first insert of the
counterexample pair. -/
theorem c4_rts_caller_supplied_witness :
    (⟨[{ sampleExec 1 5 with id := 1 }], [], 2, 1⟩ : StoreState).executions =
      StoreState.empty.executions ++
        [{ sampleExec 1 5 with id := StoreState.empty.nextExecId }] ∧
    ({ sampleExec 1 5 with id := StoreState.empty.nextExecId } : Execution).readyToSendTimestamp =
      (sampleExec 1 5).readyToSendTimestamp ∧
    (∀ now dto pid,
      (dtoToExecution now dto pid).readyToSendTimestamp = goUTC now) :=
  c4_rts_caller_supplied StoreState.empty
    ⟨[{ sampleExec 1 5 with id := 1 }], [], 2, 1⟩ (sampleExec 1 5) 1 (by rfl)

/- ## Claim C1 -/

/-- Claim C1. The claim (and the repository's own requirements: "Return 409
if duplicate batch detected") says a `sendBatch` whose batch-history
insert hits the unique constraint surfaces as HTTP 409.  The
service compares the error text against the literal
`duplicate batch detected`, but `BatchHistoryRepository.Create` wraps
every driver error as `failed to create batch history: <pq error>`, so
the comparison can never succeed and the unique-violation falls through
to the generic 500 path.  Concretely: two sends race from an empty store;
the winner (service clock 100) commits and maps to 200; the loser
(service clock 120, whose max-start-time read preceded the winner's
commit) hits the `previous_start_time` unique index, returns the generic
wrapped error, maps to HTTP 500 — not 409 — and performs no further side
effects (the store is exactly the winner's). -/
theorem c1_unique_violation_surfaces_500_not_409 :
    (goSend StoreState.empty
        (goSend StoreState.empty StoreState.empty 100 ⟨100, .utc⟩ (.ok ())).1
        120 ⟨120, .utc⟩ (.ok ())).2 =
      ⟨none, some ("failed to create batch history: failed to create batch history: " ++
        pqUniqueMsg "batch_history_previous_start_time_ndx")⟩ ∧
    sendExecutionsHTTPStatus
      (goSend StoreState.empty
        (goSend StoreState.empty StoreState.empty 100 ⟨100, .utc⟩ (.ok ())).1
        120 ⟨120, .utc⟩ (.ok ())).2 = 500 ∧
    (500 : Int) ≠ 409 ∧
    (goSend StoreState.empty
        (goSend StoreState.empty StoreState.empty 100 ⟨100, .utc⟩ (.ok ())).1
        120 ⟨120, .utc⟩ (.ok ())).1 =
      (goSend StoreState.empty StoreState.empty 100 ⟨100, .utc⟩ (.ok ())).1 ∧
    sendExecutionsHTTPStatus
      (goSend StoreState.empty StoreState.empty 100 ⟨100, .utc⟩ (.ok ())).2 = 200 := by
  refine ⟨by rfl, by rfl, by decide, by rfl, by rfl⟩

/- ## Claim C2 -/

/-- Claim C2 counterexample. The claim says an insert-time unique-constraint
violation is downgraded to `skipped: already exists`.  In the code a
failing `executionRepo.Create` — of any kind, the unique violation
included — sets the per-record status to `error`.  Concretely: the probe
runs against a store without record 123 (probe misses), a concurrent
caller commits record 123 before our insert, the insert hits the
`execution_service_id` unique index — and the result status is
`"error"`, not `"skipped"`. -/
theorem c2_insert_conflict_not_downgraded_counterexample :
    (processExecution StoreState.empty
        ⟨[{ sampleExec 123 50 with id := 1 }], [], 2, 1⟩
        ⟨60, .utc⟩ sampleDTO (.ok ⟨[⟨"PORTFOLIO123456789012"⟩]⟩)).2 =
      ⟨123, "error",
        "failed to create execution: " ++ ("failed to create execution: " ++
          pqUniqueMsg "execution_execution_service_id_key"),
        none⟩ ∧
    "error" ≠ "skipped" := by
  refine ⟨by rfl, by decide⟩

/-- Claim C2, amended. Only the pre-insert probe produces
`skipped: execution already exists` (with the existing id); an insert
failure of any kind — the unique-constraint violation included — yields
per-record status `error` with the wrapped insert message. -/
theorem c2_insert_failure_is_error (stProbe stInsert : StoreState)
    (now : GoTime) (dto : ExecutionPostDTO) (tr : Except String TradeResponse) :
    (∀ pf insMsg,
      validateDTO dto = true → dto.isOpen = false →
      stProbe.executions.find?
        (fun x => x.executionServiceId = dto.executionServiceId) = none →
      getPortfolioIDFromTradeService tr dto.executionServiceId = .ok pf →
      executionRepoCreate stInsert (dtoToExecution now dto pf) = .error insMsg →
      (processExecution stProbe stInsert now dto tr).2 =
        ⟨dto.executionServiceId, "error",
          "failed to create execution: " ++ insMsg, none⟩) ∧
    (∀ ex,
      validateDTO dto = true → dto.isOpen = false →
      stProbe.executions.find?
        (fun x => x.executionServiceId = dto.executionServiceId) = some ex →
      (processExecution stProbe stInsert now dto tr).2 =
        ⟨dto.executionServiceId, "skipped", "execution already exists",
          some ex.id⟩) := by
  constructor
  · intro pf insMsg hv ho hp hpf hins
    simp [processExecution, executionRepoGetByServiceId, hv, ho, hp, hpf, hins]
  · intro ex hv ho hp
    simp [processExecution, executionRepoGetByServiceId, hv, ho, hp]

/-- Witness for `c2_insert_failure_is_error`: the counterexample's race
instance, applied through the theorem. -/
theorem c2_insert_failure_is_error_witness :
    (processExecution StoreState.empty
        ⟨[{ sampleExec 123 50 with id := 1 }], [], 2, 1⟩
        ⟨60, .utc⟩ sampleDTO (.ok ⟨[⟨"PORTFOLIO123456789012"⟩]⟩)).2 =
      ⟨123, "error",
        "failed to create execution: " ++ ("failed to create execution: " ++
          pqUniqueMsg "execution_execution_service_id_key"),
        none⟩ :=
  (c2_insert_failure_is_error StoreState.empty
      ⟨[{ sampleExec 123 50 with id := 1 }], [], 2, 1⟩
      ⟨60, .utc⟩ sampleDTO (.ok ⟨[⟨"PORTFOLIO123456789012"⟩]⟩)).1
    "PORTFOLIO123456789012"
    ("failed to create execution: " ++ pqUniqueMsg "execution_execution_service_id_key")
    (by rfl) (by rfl) (by rfl) (by rfl) (by rfl)

/- ## Claim C9 -/

/-- Claim C9 counterexample. The claim says the file-name timestamp is the
current time rendered in UTC.  The generator formats `time.Now()` without
`.UTC()` (unlike `Send`, which calls `.UTC()` explicitly), so the name
renders the process-local wall clock.  At instant 2024-01-15T14:30:45Z
with local zone America/New_York the generated name carries `093045`,
while the UTC rendering carries `143045`. -/
theorem c9_filename_not_utc_counterexample :
    generateFilename ⟨1705329045, .newYork⟩ = "transactions_20240115_093045.csv" ∧
    filenameRenderedUTC 1705329045 = "transactions_20240115_143045.csv" ∧
    generateFilename ⟨1705329045, .newYork⟩ ≠ filenameRenderedUTC 1705329045 := by
  refine ⟨by rfl, by rfl, by decide⟩

/-- Claim C9, amended. The generated file is named
`transactions_<YYYYMMDD_HHMMSS>.csv` where the timestamp renders the
generator's clock in the **process-local** time zone (the local rendering
equals the UTC rendering of the offset-shifted instant, and coincides
with the claim's UTC rendering exactly when the process zone is UTC), and
the file is placed in the configured output directory. -/
theorem c9_filename_local_zone (t : GoTime) (outputDir : String) :
    generateFilename t = "transactions_" ++ goFormatStamp t ++ ".csv" ∧
    goFormatStamp t = goFormatStamp ⟨t.sec + locOffset t.loc t.sec, .utc⟩ ∧
    (t.loc = .utc → generateFilename t = filenameRenderedUTC t.sec) ∧
    generatedFilePath outputDir (generateFilename t) =
      outputDir ++ "/" ++ generateFilename t := by
  refine ⟨rfl, ?_, ?_, rfl⟩
  · simp [goFormatStamp, locOffset]
  · rcases t with ⟨s, l⟩
    intro h
    simp only at h
    subst h
    rfl

/-- Witness for `c9_filename_local_zone`: a UTC-zoned clock, where the
local rendering and the UTC rendering agree. -/
theorem c9_filename_local_zone_witness :
    (GoTime.mk 1705329045 .utc).loc = .utc ∧
    generateFilename ⟨1705329045, .utc⟩ = filenameRenderedUTC 1705329045 :=
  ⟨rfl, (c9_filename_local_zone ⟨1705329045, .utc⟩ "/usr/local/share/files").2.2.1 rfl⟩

/- ## Claim C10 -/

instance : IsTotal Execution idDescLe := ⟨fun a b => le_total b.id a.id⟩

instance : IsTrans Execution idDescLe := ⟨fun _ _ _ hab hbc => le_trans hbc hab⟩

/-- Claim C10. For every limit and offset, the paged list operation returns
the page ordered by strictly descending allocation id (newest first,
given the primary-key distinctness of ids) together with the total row
count. -/
theorem c10_list_page_desc_with_total (st : StoreState) (limit offset : Int)
    (hids : st.executions.Pairwise (fun a b => a.id ≠ b.id)) :
    (executionServiceList st limit offset).1.Pairwise (fun a b => b.id < a.id) ∧
    (executionServiceList st limit offset).2.totalElements =
      (st.executions.length : Int) := by
  constructor
  · have hsorted : List.Sorted idDescLe (st.executions.insertionSort idDescLe) :=
      List.sorted_insertionSort idDescLe st.executions
    have hne : (st.executions.insertionSort idDescLe).Pairwise
        (fun a b => a.id ≠ b.id) :=
      (List.Perm.pairwise_iff (fun h => h.symm)
        (List.perm_insertionSort idDescLe st.executions)).mpr hids
    have hstrict : (st.executions.insertionSort idDescLe).Pairwise
        (fun a b => b.id < a.id) :=
      (hsorted.and hne).imp (fun h => lt_of_le_of_ne h.1 (Ne.symm h.2))
    exact List.Pairwise.sublist
      ((List.take_sublist _ _).trans (List.drop_sublist _ _)) hstrict
  · rfl

/-- Witness for `c10_list_page_desc_with_total`: three rows, `limit = 2`,
`offset = 1`. -/
theorem c10_list_page_desc_with_total_witness :
    ([{ sampleExec 1 10 with id := 1 }, { sampleExec 2 20 with id := 2 },
      { sampleExec 3 30 with id := 3 }] : List Execution).Pairwise
        (fun a b => a.id ≠ b.id) ∧
    (executionServiceList
      ⟨[{ sampleExec 1 10 with id := 1 }, { sampleExec 2 20 with id := 2 },
        { sampleExec 3 30 with id := 3 }], [], 4, 1⟩ 2 1).1.Pairwise
        (fun a b => b.id < a.id) ∧
    (executionServiceList
      ⟨[{ sampleExec 1 10 with id := 1 }, { sampleExec 2 20 with id := 2 },
        { sampleExec 3 30 with id := 3 }], [], 4, 1⟩ 2 1).2.totalElements = 3 := by
  have h := c10_list_page_desc_with_total
    ⟨[{ sampleExec 1 10 with id := 1 }, { sampleExec 2 20 with id := 2 },
      { sampleExec 3 30 with id := 3 }], [], 4, 1⟩ 2 1 (by decide)
  exact ⟨by decide, h.1, by simpa using h.2⟩

/- ## Claim C7 -/

/-- The loop issues at most `fuel` requests. -/
theorem runRetryFrom_requests_le (b : Int) (o : Nat → AttemptOutcome) :
    ∀ fuel attempt, (runRetryFrom b o attempt fuel).requests ≤ fuel := by
  intro fuel
  induction fuel with
  | zero => intro attempt; simp [runRetryFrom]
  | succ f ih =>
    intro attempt
    have hrec := ih (attempt + 1)
    rcases ho : o attempt with _ | c | m <;>
      simp only [runRetryFrom, ho] <;>
      first
        | omega
        | (split <;> simp <;> omega)

/-- The waits are `attempt × baseDelay` for the consecutive retry indexes
(general position: the loop entered at `attempt ≥ 1`). -/
theorem runRetryFrom_delays (b : Int) (o : Nat → AttemptOutcome) :
    ∀ fuel attempt, 1 ≤ attempt →
      (runRetryFrom b o attempt fuel).delays =
        (List.range' attempt (runRetryFrom b o attempt fuel).requests).map
          (fun i => (i : Int) * b) := by
  intro fuel
  induction fuel with
  | zero => intro attempt _; simp [runRetryFrom]
  | succ f ih =>
    intro attempt h1
    have hgt : attempt > 0 := h1
    rcases ho : o attempt with _ | c | m <;>
      simp only [runRetryFrom, ho, if_pos hgt]
    · simp [List.range']
    · split
      · simp [List.range']
      · have := ih (attempt + 1) (by omega)
        simp only [this]
        rw [Nat.add_comm 1, List.range'_succ]
        simp
    · split
      · simp [List.range']
      · have := ih (attempt + 1) (by omega)
        simp only [this]
        rw [Nat.add_comm 1, List.range'_succ]
        simp

/-- If the first `i` outcomes after `attempt` all let the loop continue,
the loop stops exactly at relative index `i` when that attempt succeeds
(reporting success) or returns a 4xx (breaking with failure), having
issued `i + 1` requests. -/
theorem runRetryFrom_stops (b : Int) (o : Nat → AttemptOutcome) :
    ∀ i fuel attempt, i < fuel →
      (∀ j, j < i → continuesAfter (o (attempt + j)) = true) →
      ((o (attempt + i) = .success →
        (runRetryFrom b o attempt fuel).success = true ∧
        (runRetryFrom b o attempt fuel).requests = i + 1) ∧
      (is4xx (o (attempt + i)) = true →
        (runRetryFrom b o attempt fuel).success = false ∧
        (runRetryFrom b o attempt fuel).requests = i + 1)) := by
  intro i
  induction i with
  | zero =>
    intro fuel attempt hlt _
    obtain ⟨f, rfl⟩ : ∃ f, fuel = f + 1 := ⟨fuel - 1, by omega⟩
    constructor
    · intro hs
      rw [Nat.add_zero] at hs
      simp [runRetryFrom, hs]
    · intro h4
      rw [Nat.add_zero] at h4
      rcases ho : o attempt with _ | c | m
      · rw [ho] at h4; simp [is4xx] at h4
      · rw [ho] at h4
        simp [runRetryFrom, ho, h4]
      · rw [ho] at h4; simp [is4xx] at h4
  | succ i ih =>
    intro fuel attempt hlt hcont
    obtain ⟨f, rfl⟩ : ∃ f, fuel = f + 1 := ⟨fuel - 1, by omega⟩
    have hc0 : continuesAfter (o attempt) = true := by
      have h := hcont 0 (Nat.succ_pos i)
      rwa [Nat.add_zero] at h
    have hshift : ∀ j, j < i → continuesAfter (o (attempt + 1 + j)) = true := by
      intro j hj
      have h := hcont (j + 1) (by omega)
      rwa [show attempt + (j + 1) = attempt + 1 + j by omega] at h
    have hrest := ih f (attempt + 1) (by omega) hshift
    have hidx : attempt + (i + 1) = attempt + 1 + i := by omega
    rcases ho : o attempt with _ | c | m
    · rw [ho] at hc0; simp [continuesAfter] at hc0
    · have h4 : is4xx (AttemptOutcome.httpError c) = false := by
        rw [ho] at hc0
        simpa [continuesAfter] using hc0
      constructor
      · intro hs
        rw [hidx] at hs
        have h' := hrest.1 hs
        constructor
        · simpa [runRetryFrom, ho, h4] using h'.1
        · have := h'.2
          simp [runRetryFrom, ho, h4, this]
          omega
      · intro hx
        rw [hidx] at hx
        have h' := hrest.2 hx
        constructor
        · simpa [runRetryFrom, ho, h4] using h'.1
        · have := h'.2
          simp [runRetryFrom, ho, h4, this]
          omega
    · have h4 : is4xx (AttemptOutcome.failure m) = false := rfl
      constructor
      · intro hs
        rw [hidx] at hs
        have h' := hrest.1 hs
        constructor
        · simpa [runRetryFrom, ho, h4] using h'.1
        · have := h'.2
          simp [runRetryFrom, ho, h4, this]
          omega
      · intro hx
        rw [hidx] at hx
        have h' := hrest.2 hx
        constructor
        · simpa [runRetryFrom, ho, h4] using h'.1
        · have := h'.2
          simp [runRetryFrom, ho, h4, this]
          omega

/-- Claim C7. The retry loop issues at most `maxAttempts = maxRetries + 1`
requests in total; the waits before the successive retries are
`1·baseDelay, 2·baseDelay, …` (linear backoff, `attempt × baseDelay`
before retry number `attempt`); when the first `k` outcomes let the loop
continue and attempt `k` (within the attempt budget) succeeds, the caller
sees success after exactly `k + 1` requests; when attempt `k` instead
returns a 4xx-class response, the loop breaks — no further request — with
failure after exactly `k + 1` requests. -/
theorem c7_retry_policy (b : Int) (mr : Nat) (o : Nat → AttemptOutcome) :
    (executeWithRetry b mr o).requests ≤ mr + 1 ∧
    (executeWithRetry b mr o).delays =
      (List.range' 1 ((executeWithRetry b mr o).requests - 1)).map
        (fun i => (i : Int) * b) ∧
    (∀ k, k ≤ mr → (∀ j, j < k → continuesAfter (o j) = true) →
      ((o k = .success →
        (executeWithRetry b mr o).success = true ∧
        (executeWithRetry b mr o).requests = k + 1) ∧
      (is4xx (o k) = true →
        (executeWithRetry b mr o).success = false ∧
        (executeWithRetry b mr o).requests = k + 1))) := by
  refine ⟨runRetryFrom_requests_le b o (mr + 1) 0, ?_, ?_⟩
  · rcases ho : o 0 with _ | c | m
    · simp [executeWithRetry, runRetryFrom, ho, List.range']
    · by_cases h4 : is4xx (AttemptOutcome.httpError c) = true
      · simp [executeWithRetry, runRetryFrom, ho, h4, List.range']
      · have hd := runRetryFrom_delays b o mr 1 (le_refl 1)
        have hreq : (executeWithRetry b mr o).requests =
            1 + (runRetryFrom b o 1 mr).requests := by
          simp [executeWithRetry, runRetryFrom, ho, h4]
        have hdel : (executeWithRetry b mr o).delays =
            (runRetryFrom b o 1 mr).delays := by
          simp [executeWithRetry, runRetryFrom, ho, h4]
        rw [hdel, hreq, show 1 + (runRetryFrom b o 1 mr).requests - 1 =
          (runRetryFrom b o 1 mr).requests by omega]
        exact hd
    · have h4 : is4xx (AttemptOutcome.failure m) = false := rfl
      have hd := runRetryFrom_delays b o mr 1 (le_refl 1)
      have hreq : (executeWithRetry b mr o).requests =
          1 + (runRetryFrom b o 1 mr).requests := by
        simp [executeWithRetry, runRetryFrom, ho, h4]
      have hdel : (executeWithRetry b mr o).delays =
          (runRetryFrom b o 1 mr).delays := by
        simp [executeWithRetry, runRetryFrom, ho, h4]
      rw [hdel, hreq, show 1 + (runRetryFrom b o 1 mr).requests - 1 =
        (runRetryFrom b o 1 mr).requests by omega]
      exact hd
  · intro k hk hcont
    have h := runRetryFrom_stops b o k (mr + 1) 0 (by omega)
      (fun j hj => by rw [Nat.zero_add]; exact hcont j hj)
    constructor
    · intro hs
      exact h.1 (by rwa [Nat.zero_add])
    · intro hx
      exact h.2 (by rwa [Nat.zero_add])

/-- Witness for `c7_retry_policy`: defaults (`baseDelay = 1`,
`maxRetries = 3`), two 500s then a success at attempt 2. -/
theorem c7_retry_policy_witness :
    (executeWithRetry 1 3
      (fun n => if n < 2 then AttemptOutcome.httpError 500 else .success)).success = true ∧
    (executeWithRetry 1 3
      (fun n => if n < 2 then AttemptOutcome.httpError 500 else .success)).requests = 3 := by
  have h := (c7_retry_policy 1 3
    (fun n => if n < 2 then AttemptOutcome.httpError 500 else .success)).2.2
    2 (by omega) (by decide)
  exact h.1 (by rfl)

/- ## Claim C8 -/

/-- A decimal digit character is never the radix point. -/
theorem decDigit_ne_dot (n : Nat) : decDigit n ≠ '.' := by
  unfold decDigit
  have h : n % 10 < 10 := Nat.mod_lt _ (by omega)
  set k := n % 10 with hk
  interval_cases k <;> decide

/-- A decimal digit character is a digit. -/
theorem decDigit_isDigit (n : Nat) : (decDigit n).isDigit = true := by
  unfold decDigit
  have h : n % 10 < 10 := Nat.mod_lt _ (by omega)
  set k := n % 10 with hk
  interval_cases k <;> decide

/-- No fractional digit is the radix point. -/
theorem fracDigits8_ne_dot (m : Nat) : ∀ c ∈ fracDigits8 m, c ≠ '.' := by
  intro c hc
  simp only [fracDigits8, List.mem_cons, List.not_mem_nil, or_false] at hc
  rcases hc with h | h | h | h | h | h | h | h <;> (subst h; exact decDigit_ne_dot _)

/-- Every fractional digit is a digit. -/
theorem fracDigits8_isDigit (m : Nat) : ∀ c ∈ fracDigits8 m, c.isDigit = true := by
  intro c hc
  simp only [fracDigits8, List.mem_cons, List.not_mem_nil, or_false] at hc
  rcases hc with h | h | h | h | h | h | h | h <;> (subst h; exact decDigit_isDigit _)

/-- The `takeWhile` of a list whose prefix satisfies the predicate and whose
next element falsifies it returns exactly the prefix. -/
theorem takeWhile_all_append {α : Type} (p : α → Bool) (xs : List α) (y : α)
    (ys : List α) (hxs : ∀ c ∈ xs, p c = true) (hy : p y = false) :
    (xs ++ y :: ys).takeWhile p = xs := by
  induction xs with
  | nil => simp [List.takeWhile, hy]
  | cons a as ih =>
    simp only [List.cons_append, List.takeWhile, hxs a (by simp), List.append_eq]
    rw [ih (fun c hc => hxs c (by simp [hc]))]

/-- The characters after the radix point of `fmtFixed8` are exactly the
eight fractional digits. -/
theorem fmtFixed8_fraction (v : Int) :
    (fmtFixed8 v).data.reverse.takeWhile (fun c => c ≠ '.') =
      (fracDigits8 (v.natAbs % 100000000)).reverse := by
  unfold fmtFixed8
  rw [String.data_append, String.data_append, String.data_append]
  have hdot : (("." : String).data) = ['.'] := rfl
  rw [hdot]
  rw [show ((if v < 0 then "-" else "").data ++ (toString (v.natAbs / 100000000)).data ++ ['.']) ++
      (String.mk (fracDigits8 (v.natAbs % 100000000))).data =
    (((if v < 0 then "-" else "").data ++ (toString (v.natAbs / 100000000)).data) ++ ['.']) ++
      (fracDigits8 (v.natAbs % 100000000)) from by simp]
  rw [List.reverse_append, List.reverse_append]
  simp only [List.reverse_cons, List.reverse_nil, List.nil_append, List.singleton_append]
  exact takeWhile_all_append _ _ '.' _
    (fun c hc => by
      simp only [decide_eq_true_eq]
      exact fracDigits8_ne_dot _ c (List.mem_reverse.mp hc))
    (by simp)

/- Single-step reduction laws of the CSV scanner. -/

/-- Inside quotes, a quote switches to the after-quote state. -/
theorem csvScan_q_quote (acc cs : List Char) (fields : List String) :
    csvScan .q acc ('"' :: cs) fields = csvScan .postq acc cs fields := rfl

/-- Inside quotes, any other character is accumulated. -/
theorem csvScan_q_other (acc cs : List Char) (fields : List String) (c : Char)
    (h : c ≠ '"') :
    csvScan .q acc (c :: cs) fields = csvScan .q (c :: acc) cs fields := by
  simp [csvScan, h]

/-- After a quote, another quote is a doubled (escaped) quote. -/
theorem csvScan_postq_quote (acc cs : List Char) (fields : List String) :
    csvScan .postq acc ('"' :: cs) fields = csvScan .q ('"' :: acc) cs fields := rfl

/-- After a closing quote, a comma ends the field. -/
theorem csvScan_postq_comma (acc cs : List Char) (fields : List String) :
    csvScan .postq acc (',' :: cs) fields =
      csvScan .start [] cs (String.mk acc.reverse :: fields) := rfl

/-- After a closing quote, a final newline ends the record. -/
theorem csvScan_postq_nl (acc : List Char) (fields : List String) :
    csvScan .postq acc ['\n'] fields =
      some ((String.mk acc.reverse :: fields).reverse) := rfl

/-- At a field start, a quote opens a quoted field. -/
theorem csvScan_start_quote (acc cs : List Char) (fields : List String) :
    csvScan .start acc ('"' :: cs) fields = csvScan .q acc cs fields := rfl

/-- At a field start, a comma emits an empty field. -/
theorem csvScan_start_comma (acc cs : List Char) (fields : List String) :
    csvScan .start acc (',' :: cs) fields =
      csvScan .start [] cs (String.mk acc.reverse :: fields) := rfl

/-- At a field start, a final newline ends the record. -/
theorem csvScan_start_nl (acc : List Char) (fields : List String) :
    csvScan .start acc ['\n'] fields =
      some ((String.mk acc.reverse :: fields).reverse) := rfl

/-- At a field start, an ordinary character begins an unquoted field. -/
theorem csvScan_start_other (acc cs : List Char) (fields : List String) (c : Char)
    (h1 : c ≠ '"') (h2 : c ≠ ',') (h3 : c ≠ '\n') :
    csvScan .start acc (c :: cs) fields = csvScan .unq (c :: acc) cs fields := by
  simp [csvScan, h1, h2, h3]

/-- In an unquoted field, a comma ends the field. -/
theorem csvScan_unq_comma (acc cs : List Char) (fields : List String) :
    csvScan .unq acc (',' :: cs) fields =
      csvScan .start [] cs (String.mk acc.reverse :: fields) := rfl

/-- In an unquoted field, a final newline ends the record. -/
theorem csvScan_unq_nl (acc : List Char) (fields : List String) :
    csvScan .unq acc ['\n'] fields =
      some ((String.mk acc.reverse :: fields).reverse) := rfl

/-- In an unquoted field, an ordinary character is accumulated. -/
theorem csvScan_unq_other (acc cs : List Char) (fields : List String) (c : Char)
    (h2 : c ≠ ',') (h3 : c ≠ '\n') :
    csvScan .unq acc (c :: cs) fields = csvScan .unq (c :: acc) cs fields := by
  simp [csvScan, h2, h3]

/-- Scanning the quote-doubled image of `l` inside a quoted field stops at
the closing quote with `l` accumulated. -/
theorem csvScan_q_esc (rest : List Char) (fields : List String) :
    ∀ (l acc : List Char),
      csvScan .q acc (escQuotes l ++ '"' :: rest) fields =
        csvScan .postq (l.reverse ++ acc) rest fields := by
  intro l
  induction l with
  | nil => intro acc; simp [escQuotes, csvScan_q_quote]
  | cons c cs ih =>
    intro acc
    by_cases hc : c = '"'
    · subst hc
      show csvScan .q acc ('"' :: '"' :: (escQuotes cs ++ '"' :: rest)) fields = _
      rw [csvScan_q_quote, csvScan_postq_quote, ih ('"' :: acc)]
      congr 1
      simp
    · have hesc : escQuotes (c :: cs) = c :: escQuotes cs := by
        simp [escQuotes, hc]
      rw [hesc, List.cons_append, csvScan_q_other _ _ _ _ hc, ih (c :: acc)]
      congr 1
      simp

/-- Scanning an unquoted run (no comma, no newline) accumulates it. -/
theorem csvScan_unq_run (rest : List Char) (fields : List String) :
    ∀ (l acc : List Char), (∀ c ∈ l, c ≠ ',' ∧ c ≠ '\n') →
      csvScan .unq acc (l ++ rest) fields =
        csvScan .unq (l.reverse ++ acc) rest fields := by
  intro l
  induction l with
  | nil => intro acc _; simp
  | cons c cs ih =>
    intro acc h
    have hc := h c (by simp)
    rw [List.cons_append, csvScan_unq_other _ _ _ _ hc.1 hc.2,
      ih (c :: acc) (fun d hd => h d (by simp [hd]))]
    congr 1
    simp

/-- A field with `needsQuoting = false` gives character-wise absence of the special
characters. -/
theorem needsQuoting_false_chars (f : String) (hq : needsQuoting f = false) :
    ∀ c ∈ f.data, c ≠ ',' ∧ c ≠ '"' ∧ c ≠ '\n' := by
  intro c hc
  unfold needsQuoting at hq
  rw [List.any_eq_false] at hq
  have := hq c hc
  simpa [not_or] using this

/-- Scanning an escaped field followed by a comma emits exactly the raw
field and continues at the next field start. -/
theorem csvScan_field_comma (f : String) (rest : List Char) (fields : List String) :
    csvScan .start [] ((escapeField f).data ++ ',' :: rest) fields =
      csvScan .start [] rest (f :: fields) := by
  obtain ⟨l⟩ := f
  by_cases hq : needsQuoting ⟨l⟩ = true
  · have hdata : (escapeField ⟨l⟩).data = '"' :: (escQuotes l ++ ['"']) := by
      simp [escapeField, hq]
    rw [hdata, List.cons_append, csvScan_start_quote, List.append_assoc,
      List.singleton_append, csvScan_q_esc, csvScan_postq_comma]
    simp
  · have hq' : needsQuoting ⟨l⟩ = false := by
      simpa using hq
    have hdata : (escapeField ⟨l⟩).data = l := by
      simp [escapeField, hq']
    have hchars := needsQuoting_false_chars ⟨l⟩ hq'
    rw [hdata]
    cases l with
    | nil =>
      rw [List.nil_append, csvScan_start_comma]
      simp
    | cons c cs =>
      have hc := hchars c (by simp)
      rw [List.cons_append,
        csvScan_start_other _ _ _ _ hc.2.1 hc.1 hc.2.2,
        csvScan_unq_run _ _ cs (c :: [])
          (fun d hd => ⟨(hchars d (by simp [hd])).1, (hchars d (by simp [hd])).2.2⟩),
        csvScan_unq_comma]
      simp

/-- Scanning an escaped field followed by the final newline ends the
record with exactly the raw field. -/
theorem csvScan_field_nl (f : String) (fields : List String) :
    csvScan .start [] ((escapeField f).data ++ ['\n']) fields =
      some ((f :: fields).reverse) := by
  obtain ⟨l⟩ := f
  by_cases hq : needsQuoting ⟨l⟩ = true
  · have hdata : (escapeField ⟨l⟩).data = '"' :: (escQuotes l ++ ['"']) := by
      simp [escapeField, hq]
    rw [hdata, List.cons_append, csvScan_start_quote, List.append_assoc,
      List.singleton_append, csvScan_q_esc, csvScan_postq_nl]
    simp
  · have hq' : needsQuoting ⟨l⟩ = false := by
      simpa using hq
    have hdata : (escapeField ⟨l⟩).data = l := by
      simp [escapeField, hq']
    have hchars := needsQuoting_false_chars ⟨l⟩ hq'
    rw [hdata]
    cases l with
    | nil =>
      rw [List.nil_append, csvScan_start_nl]
      simp
    | cons c cs =>
      have hc := hchars c (by simp)
      rw [List.cons_append,
        csvScan_start_other _ _ _ _ hc.2.1 hc.1 hc.2.2,
        csvScan_unq_run _ _ cs (c :: [])
          (fun d hd => ⟨(hchars d (by simp [hd])).1, (hchars d (by simp [hd])).2.2⟩),
        csvScan_unq_nl]
      simp

/-- Scanning a full comma-joined, escaped, newline-terminated record
recovers the raw fields, appended to the already-read ones. -/
theorem csvScan_record (fs : List String) :
    ∀ (f : String) (fields : List String),
      csvScan .start []
        ((goStringsJoin "," (List.map escapeField (f :: fs))).data ++ ['\n'])
        fields =
      some (fields.reverse ++ f :: fs) := by
  induction fs with
  | nil =>
    intro f fields
    show csvScan .start [] ((escapeField f).data ++ ['\n']) fields = _
    rw [csvScan_field_nl]
    simp
  | cons g gs ih =>
    intro f fields
    show csvScan .start []
      ((escapeField f ++ "," ++ goStringsJoin "," (List.map escapeField (g :: gs))).data ++
        ['\n']) fields = _
    rw [String.data_append, String.data_append,
      show (("," : String)).data = [','] from rfl, List.append_assoc,
      List.append_assoc, List.singleton_append, csvScan_field_comma,
      ih g (f :: fields)]
    simp

/-- Claim C8. The formatter emits the header line followed by exactly one
line per allocation in input order; each emitted line, read back under
the CSV quoting rules (fields containing a comma, double quote or
newline are wrapped in double quotes with inner quotes doubled), yields
exactly the seven raw fields `portfolio_id, security_id,
source_id = "AC" ++ id, transaction_type = side, quantity, price,
transaction_date = tradeDate rendered YYYY-MM-DD`; and the numeric
rendering carries exactly eight fractional digits, all decimal. -/
theorem c8_formatter_roundtrip (execs : List Execution) (e : Execution) (v : Int) :
    generateFileContent execs =
      csvHeader ++ goConcat (execs.map executionToCSVLine) ∧
    readCSVRecord (executionToCSVLine e) = some (csvFields e) ∧
    csvFields e =
      [ (match e.portfolioId with | some p => p | none => ""),
        e.securityId,
        "AC" ++ toString e.id,
        e.tradeType,
        fmtFixed8 e.quantity,
        fmtFixed8 e.averagePrice,
        goFormatDate e.tradeDate ] ∧
    ((fmtFixed8 v).data.reverse.takeWhile (fun c => c ≠ '.')).length = 8 ∧
    (∀ c ∈ (fmtFixed8 v).data.reverse.takeWhile (fun c => c ≠ '.'),
      c.isDigit = true) := by
  refine ⟨rfl, ?_, rfl, ?_, ?_⟩
  · show csvScan .start []
      ((goStringsJoin "," ((csvFields e).map escapeField) ++ "\n").data) [] = _
    rw [String.data_append, show (("\n" : String)).data = ['\n'] from rfl]
    exact csvScan_record
      [ e.securityId, "AC" ++ toString e.id, e.tradeType, fmtFixed8 e.quantity,
        fmtFixed8 e.averagePrice, goFormatDate e.tradeDate ]
      (match e.portfolioId with | some p => p | none => "") []
  · rw [fmtFixed8_fraction]
    simp [fracDigits8]
  · intro c hc
    rw [fmtFixed8_fraction] at hc
    exact fracDigits8_isDigit _ c (List.mem_reverse.mp hc)

/-- Witness for `c8_formatter_roundtrip`: a record whose portfolio id
needs quoting, with quantity 100.5, and the inner-membership hypothesis
discharged at the digit '5'. -/
theorem c8_formatter_roundtrip_witness :
    readCSVRecord (executionToCSVLine { sampleExec 123 50 with
        id := 1, portfolioId := some "PORT,\"X\"" }) =
      some (csvFields { sampleExec 123 50 with
        id := 1, portfolioId := some "PORT,\"X\"" }) ∧
    ('5' : Char).isDigit = true := by
  constructor
  · exact (c8_formatter_roundtrip []
      { sampleExec 123 50 with id := 1, portfolioId := some "PORT,\"X\"" }
      10050000000).2.1
  · exact (c8_formatter_roundtrip []
      { sampleExec 123 50 with id := 1, portfolioId := some "PORT,\"X\"" }
      10050000000).2.2.2.2 '5' (by decide)
